import Mathlib

/-!
Verification of the LLRP reader client (Zebra FX9600) against its
specification.  The repository's protocol engine is shallowly embedded:
byte buffers are lists of naturals, the frame codec, parameter walkers,
capabilities parser, ROSpec builder, tag-report parser and the session
controller's message dispatch are translated as executable functions.
-/

/-- Read the byte at index `i`; out-of-range indexing yields 0 (in the
source, `data[i]` beyond the end is `undefined`, which the bitwise tests
treat as 0). -/
def byteAt (d : List Nat) (i : Nat) : Nat := d.getD i 0

/-- Big-endian 16-bit read, as `Buffer.readUInt16BE`. -/
def read16 (d : List Nat) (i : Nat) : Nat := byteAt d i * 256 + byteAt d (i + 1)

/-- Big-endian 32-bit read, as `Buffer.readUInt32BE`. -/
def read32 (d : List Nat) (i : Nat) : Nat :=
  ((byteAt d i * 256 + byteAt d (i + 1)) * 256 + byteAt d (i + 2)) * 256 + byteAt d (i + 3)

/-- Big-endian 64-bit read, as `Buffer.readBigUInt64BE`. -/
def read64 (d : List Nat) (i : Nat) : Nat := read32 d i * 4294967296 + read32 d (i + 4)

/-- Signed 16-bit big-endian read, as `Buffer.readInt16BE`. -/
def readInt16 (d : List Nat) (i : Nat) : Int :=
  let v := read16 d i
  if v < 32768 then (v : Int) else (v : Int) - 65536

/-- Signed 8-bit read, as `Buffer.readInt8`. -/
def readInt8 (d : List Nat) (i : Nat) : Int :=
  let v := byteAt d i
  if v < 128 then (v : Int) else (v : Int) - 256

/-- Big-endian 16-bit write, as `Buffer.writeUInt16BE`. -/
def u16w (n : Nat) : List Nat := [n / 256 % 256, n % 256]

/-- Big-endian 32-bit write, as `Buffer.writeUInt32BE`. -/
def u32w (n : Nat) : List Nat :=
  [n / 16777216 % 256, n / 65536 % 256, n / 256 % 256, n % 256]

/-- `Buffer.slice(a, b)` (clamping, non-copying in the source). -/
def bufSlice (d : List Nat) (a b : Nat) : List Nat := (d.drop a).take (b - a)

/-- The TLV builder from `buildROSpec`: type, length (including the 4-byte
header), then the value bytes. -/
def tlvB (t : Nat) (v : List Nat) : List Nat := u16w t ++ u16w (4 + v.length) ++ v

/-- Fueled TLV walk shared by `checkResponse`, `parseCapabilities`,
`parseRegulatoryCapabilities`, `parseUHFBandCapabilities` and
`parseTagReport` in the source: while `offset + 4 <= data.length`, read the
masked parameter type and the length; stop on a zero length or a parameter
overrunning the buffer; otherwise record `(offset, type, length)` and
advance by the length. -/
def paramsF : Nat → List Nat → Nat → List (Nat × Nat × Nat)
  | 0, _, _ => []
  | fuel + 1, d, off =>
    if off + 4 ≤ d.length then
      let ty := read16 d off &&& 1023
      let len := read16 d (off + 2)
      if len = 0 ∨ d.length - off < len then []
      else (off, ty, len) :: paramsF fuel d (off + len)
    else []

/-- The TLV walk starting at `off`; the fuel `d.length + 1` dominates the
number of iterations because every step advances the offset by at least 1
within the buffer. -/
def paramsFrom (d : List Nat) (off : Nat) : List (Nat × Nat × Nat) :=
  paramsF (d.length + 1) d off

/-- A tag observation as assembled by `parseTagReportData` (the EPC is kept
as raw bytes; the source's hex formatting is presentation only). -/
structure Tag where
  epc : Option (List Nat) := none
  antenna : Option Nat := none
  rssi : Option Int := none
  timestamp : Option Nat := none
  seenCount : Option Nat := none
deriving DecidableEq, Repr

/-- The empty observation `parseTagReportData` starts from. -/
def tag0 : Tag := {}

/-- The resynchronisation scan of `parseTagReportData`: the first
`j ∈ [1, maxJ]` with `offset + j` inside the buffer and the byte there
having its MSB set (the loops `for j = 1..16` and `for skip = 1..4` in the
source). -/
def msbScan (d : List Nat) (off : Nat) (maxJ : Nat) : Option Nat :=
  (List.range' 1 maxJ).find? fun j =>
    decide (off + j < d.length) && decide (byteAt d (off + j) &&& 128 ≠ 0)

/-- Fueled translation of the `while` loop of `parseTagReportData`:
TV parameters with MSB-set type byte, the known TV-type table, the unknown-TV
16-byte resynchronisation, and the TLV branch with its 4-byte
resynchronisation on a zero-length or overrunning TLV. -/
def tagLoopF : Nat → List Nat → Nat → Tag → Tag
  | 0, _, _, tg => tg
  | fuel + 1, d, off, tg =>
    if off < d.length then
      if byteAt d off &&& 128 ≠ 0 then
        let tv := byteAt d off &&& 127
        if tv = 1 then
          tagLoopF fuel d (off + 3)
            (if off + 3 ≤ d.length then { tg with antenna := some (read16 d (off + 1)) } else tg)
        else if tv = 6 then
          tagLoopF fuel d (off + 2)
            (if off + 2 ≤ d.length then { tg with rssi := some (readInt8 d (off + 1)) } else tg)
        else if tv = 7 then tagLoopF fuel d (off + 3) tg
        else if tv = 8 then tagLoopF fuel d (off + 9) tg
        else if tv = 9 then
          tagLoopF fuel d (off + 9)
            (if off + 9 ≤ d.length then { tg with timestamp := some (read64 d (off + 1)) } else tg)
        else if tv = 10 then
          tagLoopF fuel d (off + 3)
            (if off + 3 ≤ d.length then { tg with seenCount := some (read16 d (off + 1)) } else tg)
        else if tv = 13 then
          tagLoopF fuel d (off + 13)
            (if off + 13 ≤ d.length then { tg with epc := some (bufSlice d (off + 1) (off + 13)) } else tg)
        else if tv = 14 then tagLoopF fuel d (off + 5) tg
        else if tv = 15 then tagLoopF fuel d (off + 3) tg
        else if tv = 16 then tagLoopF fuel d (off + 3) tg
        else
          match msbScan d off 16 with
          | some j => tagLoopF fuel d (off + j) tg
          | none => tg
      else
        if off + 3 < d.length then
          let tlvType := read16 d off &&& 1023
          let tlvLen := read16 d (off + 2)
          if tlvLen = 0 ∨ d.length < off + tlvLen then
            match msbScan d off 4 with
            | some j => tagLoopF fuel d (off + j) tg
            | none => tg
          else
            let tg' :=
              if tlvType = 241 then
                if off + 5 < d.length then
                  let epcLen := read16 d (off + 4) / 8
                  if off + 6 + epcLen ≤ d.length then
                    { tg with epc := some (bufSlice d (off + 6) (off + 6 + epcLen)) }
                  else tg
                else tg
              else if tlvType = 13 then
                if off + 16 ≤ d.length then
                  { tg with epc := some (bufSlice d (off + 4) (off + 16)) }
                else tg
              else tg
            tagLoopF fuel d (off + tlvLen) tg'
        else tg
    else tg

/-- `parseTagReportData` on one `TagReportData` body: run the loop from
offset 0 on the empty observation.  The fuel `d.length + 1` dominates the
iteration count because every continuing step advances the offset by at
least 1 inside the buffer. -/
def parseTagReportData (d : List Nat) : Tag := tagLoopF (d.length + 1) d 0 tag0

/-- The capability tables accumulated by the parser: the transmit power
table `{index, powerDbm}` and the hop-table IDs, in discovery order. -/
structure Caps where
  power : List (Nat × ℚ) := []
  hop : List Nat := []
deriving DecidableEq, Repr

/-- Stable insertion used to model `Array.prototype.sort` with comparator
`(a, b) => a.powerDbm - b.powerDbm` (a stable ascending sort): the new
element goes after all strictly smaller keys and before equal ones coming
from later positions. -/
def insertPow (e : Nat × ℚ) : List (Nat × ℚ) → List (Nat × ℚ)
  | [] => [e]
  | x :: xs => if x.2 < e.2 then x :: insertPow e xs else e :: x :: xs

/-- Stable sort of the power table by `powerDbm` ascending. -/
def sortPow : List (Nat × ℚ) → List (Nat × ℚ)
  | [] => []
  | x :: xs => insertPow x (sortPow xs)

/-- The dBm value stored for a raw hundredths-of-dBm wire field:
`powerValue / 100.0` in the source. -/
def dbmOf (v : Int) : ℚ := Rat.divInt v 100

/-- The `TransmitPowerLevelTableEntry` (145) records collected by one pass
of `parseUHFBandCapabilities`: entries of length ≥ 8 yield
`{index = u16 at body[4..6], powerDbm = i16 at body[6..8] / 100}`. -/
def uhfEntries (d : List Nat) : List (Nat × ℚ) :=
  (paramsFrom d 4).filterMap fun p =>
    if p.2.1 = 145 ∧ 8 ≤ p.2.2 then
      some (read16 d (p.1 + 4), dbmOf (readInt16 d (p.1 + 6)))
    else none

/-- The `FrequencyHopTable` (147) IDs collected by one pass of
`parseUHFBandCapabilities`: parameters of length ≥ 6 yield the u16 at
`body[4..6]`; zero IDs are dropped. -/
def uhfIds (d : List Nat) : List Nat :=
  (paramsFrom d 4).filterMap fun p =>
    if p.2.1 = 147 ∧ 6 ≤ p.2.2 ∧ 0 < read16 d (p.1 + 4) then
      some (read16 d (p.1 + 4))
    else none

/-- `parseUHFBandCapabilities`: push every power entry and hop-table ID of
the band, then re-sort the whole accumulated power table by dBm. -/
def uhfCollect (c : Caps) (d : List Nat) : Caps :=
  { power := sortPow (c.power ++ uhfEntries d), hop := c.hop ++ uhfIds d }

/-- `parseRegulatoryCapabilities`: skip the 4-byte header, the country code
and the communications standard, then walk the nested TLVs recursing into
every `UHFBandCapabilities` (144). -/
def regCollect (c : Caps) (d : List Nat) : Caps :=
  if d.length < 8 then c
  else
    (paramsFrom d 8).foldl
      (fun c p => if p.2.1 = 144 then uhfCollect c (bufSlice d p.1 (p.1 + p.2.2)) else c) c

/-- The top-level TLV walk of `parseCapabilities` starting at `start`:
recurse into every `RegulatoryCapabilities` (143). -/
def capsCollect (c : Caps) (d : List Nat) (start : Nat) : Caps :=
  (paramsFrom d start).foldl
    (fun c p => if p.2.1 = 143 then regCollect c (bufSlice d p.1 (p.1 + p.2.2)) else c) c

/-- The session controller's cross-message state (the fields of the
`LLRPReader` instance that the claims are about). -/
structure RState where
  configStarted : Bool := false
  rospecStarted : Bool := false
  powerTable : List (Nat × ℚ) := []
  hopTableIds : List Nat := []
  hopTableId : Nat := 1
  antennaPowerIndex : List (Nat × Int) := []
deriving DecidableEq, Repr

/-- The state a fresh `LLRPReader` starts in (also the state restored by
`scheduleReconnect`). -/
def initState : RState := {}

/-- `parseCapabilities`: optionally consume a leading `LLRPStatus` (287) at
offset 10 — a non-zero status code fails the parse and leaves the state
untouched — then walk the top-level TLVs collecting power entries and hop
IDs, and finally pick the hop-table ID (first collected ID, fallback 1). -/
def parseCapabilities (s : RState) (d : List Nat) : Bool × RState :=
  let finish : Nat → Bool × RState := fun start =>
    let c := capsCollect ⟨s.powerTable, s.hopTableIds⟩ d start
    let hid := match c.hop with | [] => 1 | h :: _ => h
    (true, { s with powerTable := c.power, hopTableIds := c.hop, hopTableId := hid })
  if 14 ≤ d.length ∧ read16 d 10 &&& 1023 = 287 then
    if read16 d 14 ≠ 0 then (false, s)
    else finish (10 + read16 d 12)
  else finish 10

/-- A concrete capabilities response: one power entry `{index 1, 10 dBm}`
and one hop table ID 1, nested as 143 / 144 / (145, 147). -/
def capsMsg : List Nat :=
  [0x04, 0x0B, 0, 0, 0, 36, 0, 0, 0, 1] ++
  [0x00, 0x8F, 0x00, 26] ++ [0, 0] ++ [0, 0] ++
  [0x00, 0x90, 0x00, 18] ++
  [0x00, 0x91, 0x00, 8, 0x00, 0x01, 0x03, 0xE8] ++
  [0x00, 0x93, 0x00, 6, 0x00, 0x01]

/-- `Math.round` on a rational: JavaScript rounds half towards positive
infinity. -/
def jsRound (q : ℚ) : Int := ⌊q + 1 / 2⌋

/-- The scan of `findClosestPowerIndex` over the power table: keep the
current best entry unless a later entry is strictly closer to the target. -/
def firstMinE (t : ℚ) (acc : Nat × ℚ) : List (Nat × ℚ) → Nat × ℚ
  | [] => acc
  | e :: l => if |e.2 - t| < |acc.2 - t| then firstMinE t e l else firstMinE t acc l

/-- `findClosestPowerIndex`: on an empty table,
`Math.min(Math.max(1, Math.round(desiredDbm)), 100)`; otherwise start from
the first entry and scan the whole table, replacing the candidate only on a
strictly smaller absolute difference, and return the winning entry's
index. -/
def findClosestPowerIndex (table : List (Nat × ℚ)) (t : ℚ) : Int :=
  match table with
  | [] => min (max 1 (jsRound t)) 100
  | e0 :: _ => ((table.foldl (fun acc e => if |e.2 - t| < |acc.2 - t| then e else acc) e0).1 : Int)

/-- The configuration fields of the session controller the claims depend
on: the active antenna list and the per-antenna dBm map. -/
structure Cfg where
  antennas : List Nat
  antennaPowerDbm : Nat → Option ℚ

/-- The target dBm for an antenna: `this.config.antennaPowerDbm[ant] || 30`
(a missing entry, and also an explicit 0, falls back to 30). -/
def dbmFor (cfg : Cfg) (a : Nat) : ℚ :=
  match cfg.antennaPowerDbm a with
  | some v => if v = 0 then 30 else v
  | none => 30

/-- `computePowerIndices`: for every configured antenna store the power
index closest to its requested dBm. -/
def computePowerIndices (cfg : Cfg) (s : RState) : RState :=
  { s with antennaPowerIndex :=
      cfg.antennas.map fun a => (a, findClosestPowerIndex s.powerTable (dbmFor cfg a)) }

/-- A 16-bit write of a computed (integer) power index. -/
def u16wI (i : Int) : List Nat := u16w (i % 65536).toNat

/-- Stop-trigger TLV of `buildROSpec`: always 5 bytes of value (1 trigger
type + 4 duration), even for the Null trigger. -/
def stopTriggerTLV (tnum ttype dur : Nat) : List Nat :=
  tlvB tnum ([ttype &&& 255] ++ u32w dur)

/-- The power index used for an antenna in `buildROSpec`: the computed
index if present, else the last (highest-dBm) table entry's index, else
1. -/
def powerIndexFor (s : RState) (a : Nat) : Int :=
  match s.antennaPowerIndex.lookup a with
  | some i => i
  | none =>
    match s.powerTable.getLast? with
    | some e => (e.1 : Int)
    | none => 1

/-- `RFTransmitter` (224): HopTableID, ChannelIndex 0, TransmitPower
index. -/
def rfTransmitterB (s : RState) (i : Int) : List Nat :=
  tlvB 224 (u16w s.hopTableId ++ u16w 0 ++ u16wI i)

/-- The value bytes of an `AntennaConfiguration` (222): the antenna ID
followed by the `RFTransmitter` only (the source deliberately omits
`C1G2InventoryCommand`). -/
def antennaConfigValue (s : RState) (a : Nat) : List Nat :=
  u16w a ++ rfTransmitterB s (powerIndexFor s a)

/-- `AntennaConfiguration` (222) for one antenna. -/
def antennaConfigB (s : RState) (a : Nat) : List Nat :=
  tlvB 222 (antennaConfigValue s a)

/-- `InventoryParameterSpec` (186): SpecID 1, protocol EPCGlobalClass1Gen2,
then one `AntennaConfiguration` per antenna. -/
def invParamSpecB (cfg : Cfg) (s : RState) : List Nat :=
  tlvB 186 (u16w 1 ++ [1] ++ (cfg.antennas.map (antennaConfigB s)).flatten)

/-- `AISpec` (183): antenna count and IDs, stop trigger, inventory
parameter spec. -/
def aiSpecB (cfg : Cfg) (s : RState) : List Nat :=
  tlvB 183 (u16w cfg.antennas.length ++ (cfg.antennas.map u16w).flatten ++
    stopTriggerTLV 184 0 0 ++ invParamSpecB cfg s)

/-- `TagReportContentSelector` (238) with the two-byte mask 0x0000. -/
def trcsB : List Nat := tlvB 238 [0, 0]

/-- `ROReportSpec` (237): trigger Upon_N_Tags with N = 1, then the content
selector. -/
def roReportSpecB : List Nat := tlvB 237 ([1] ++ u16w 1 ++ trcsB)

/-- `ROBoundarySpec` (178): Null start trigger and Null stop trigger with
mandatory duration. -/
def roBoundaryB : List Nat :=
  tlvB 178 (tlvB 179 [0] ++ stopTriggerTLV 182 0 0)

/-- `buildROSpec`: the full ROSpec (177) byte sequence sent in
`ADD_ROSPEC`. -/
def buildROSpec (cfg : Cfg) (s : RState) : List Nat :=
  tlvB 177 (u32w 1 ++ [0, 0] ++ roBoundaryB ++ aiSpecB cfg s ++ roReportSpecB)

/-- The message type of a framed message:
`((data[0] & 0x03) << 8) | data[1]`. -/
def msgTypeOf (d : List Nat) : Nat := ((byteAt d 0 &&& 3) <<< 8) ||| byteAt d 1

/-- `checkResponse`: walk the response's TLV parameters after the 10-byte
header; the result is true unless some `LLRPStatus` (287) parameter carries
a non-zero status code (the error-detail decoding in the source only
logs). -/
def checkResponseB (d : List Nat) : Bool :=
  (paramsFrom d 10).all fun p => !(p.2.1 = 287 ∧ read16 d (p.1 + 4) ≠ 0 : Bool)

/-- The `TagReportData` (240) records of an `RO_ACCESS_REPORT`, each decoded
from the bytes after its 4-byte TLV header. -/
def tagRecords (d : List Nat) : List Tag :=
  (paramsFrom d 10).filterMap fun p =>
    if p.2.1 = 240 then some (parseTagReportData (bufSlice d (p.1 + 4) (p.1 + p.2.2)))
    else none

/-- `!tag.epc` in the source: the observation is emitted only when the EPC
is present and non-empty (an empty hex string is falsy). -/
def hasEpc (tg : Tag) : Bool :=
  match tg.epc with
  | some (_ :: _) => true
  | _ => false

/-- Sole-antenna synthesis: when the record carries no antenna (or antenna
0, which is falsy) and exactly one antenna is configured, attribute the
observation to it. -/
def synthAntenna (cfg : Cfg) (tg : Tag) : Tag :=
  if (tg.antenna = none ∨ tg.antenna = some 0) ∧ cfg.antennas.length = 1 then
    { tg with antenna := some (cfg.antennas.headD 0) }
  else tg

/-- An observable effect of `processMessage`: an outbound message (type and
payload), a tag observation delivered to the consumer, or the ready
event. -/
inductive Ev where
  | send : Nat → List Nat → Ev
  | tag : Tag → Ev
  | ready : Ev
deriving DecidableEq, Repr

/-- `processMessage`: dispatch one framed inbound message, returning the
new controller state and the effects, in order.  Mirrors the `switch` of
the source: capabilities drive DELETE; SET/DELETE/ADD/ENABLE responses run
the status check (which only logs) and then unconditionally send the next
message of the chain; START's response gates `rospecStarted` and the ready
event on the status check; reports are parsed only once `rospecStarted`;
keepalives are acknowledged. -/
def processMessage (cfg : Cfg) (s : RState) (d : List Nat) : RState × List Ev :=
  let mt := msgTypeOf d
  if mt = 12 then (s, [])
  else if mt = 63 then ({ s with configStarted := true }, [])
  else if mt = 11 then
    match parseCapabilities s d with
    | (false, s') => (s', [])
    | (true, s') => (computePowerIndices cfg s', [Ev.send 21 (u32w 0)])
  else if mt = 100 then (s, [])
  else if mt = 13 then (s, [Ev.send 21 (u32w 0)])
  else if mt = 31 then (s, [Ev.send 20 (buildROSpec cfg s)])
  else if mt = 30 then (s, [Ev.send 24 (u32w 1)])
  else if mt = 34 then (s, [Ev.send 22 (u32w 1)])
  else if mt = 32 then
    if checkResponseB d then ({ s with rospecStarted := true }, [Ev.ready])
    else (s, [])
  else if mt = 61 then
    (s, if s.rospecStarted then
          ((tagRecords d).filter hasEpc).map fun tg => Ev.tag (synthAntenna cfg tg)
        else [])
  else if mt = 62 then (s, [Ev.send 72 []])
  else (s, [])

/-- Process a whole inbound transcript from a state, accumulating effects
in order. -/
def runMsgs (cfg : Cfg) (s : RState) (msgs : List (List Nat)) : RState × List Ev :=
  msgs.foldl (fun acc m =>
    let r := processMessage cfg acc.1 m
    (r.1, acc.2 ++ r.2)) (s, [])

/-- The state reached after processing a whole inbound transcript
(the state component of `runMsgs`). -/
def runState (cfg : Cfg) (s : RState) (msgs : List (List Nat)) : RState :=
  msgs.foldl (fun s m => (processMessage cfg s m).1) s

/-- One iteration of the `handleData` framing loop: with at least 10
buffered bytes, read the declared total length at bytes 2..6; if the buffer
holds that many bytes, split off the frame and keep the rest, otherwise
wait for more input. -/
def handleDataStep (buf : List Nat) : Option (List Nat × List Nat) :=
  if 10 ≤ buf.length then
    let msgLength := read32 buf 2
    if buf.length < msgLength then none
    else some (buf.take msgLength, buf.drop msgLength)
  else none

/-- Iterate the framing loop up to `fuel` times, returning the frames split
off and the remaining buffer. -/
def drainF : Nat → List Nat → List (List Nat) × List Nat
  | 0, buf => ([], buf)
  | fuel + 1, buf =>
    match handleDataStep buf with
    | none => ([], buf)
    | some (fr, rest) =>
      let r := drainF fuel rest
      (fr :: r.1, r.2)

/-- The outbound frame encoder of the main reader (`sendMessage`): byte 0
is `0x04 | ((type >> 8) & 0x03)`, byte 1 the low type byte, then the total
length `10 + |payload|` and the message ID, both big-endian 32-bit, then
the payload. -/
def encodeFrame (t mid : Nat) (p : List Nat) : List Nat :=
  [0x04 ||| ((t >>> 8) &&& 3), t &&& 255] ++ u32w (10 + p.length) ++ u32w mid ++ p

/-- The outbound frame encoder of the minimal script, whose byte 0 is
written `(0x01 << 2) | ((type >> 8) & 0x03)`. -/
def encodeFrameMin (t mid : Nat) (p : List Nat) : List Nat :=
  [(0x01 <<< 2) ||| ((t >>> 8) &&& 3), t &&& 255] ++ u32w (10 + p.length) ++ u32w mid ++ p

/-- A buffered 10-byte header whose declared total length is 0. -/
def zeroLenBuf : List Nat := [4, 61, 0, 0, 0, 0, 0, 0, 0, 1]

/-- A buffered 10-byte header whose declared total length is 5 (< 10). -/
def fiveLenBuf : List Nat := [4, 61, 0, 0, 0, 5, 0, 0, 0, 1]

/-- A concrete configuration: one antenna (1) at 30 dBm. -/
def cfg0 : Cfg := ⟨[1], fun a => if a = 1 then some 30 else none⟩

/-- A concrete `ADD_ROSPEC_RESPONSE` (type 30) carrying `LLRPStatus` (287)
with status code 100. -/
def addRespBad : List Nat :=
  [0x04, 30, 0, 0, 0, 18, 0, 0, 0, 7] ++ [0x01, 0x1F, 0x00, 0x08, 0x00, 0x64, 0x00, 0x00]

/-- A concrete `START_ROSPEC_RESPONSE` (type 32) carrying `LLRPStatus`
(287) with status code 0. -/
def startRespOk : List Nat :=
  [0x04, 32, 0, 0, 0, 18, 0, 0, 0, 8] ++ [0x01, 0x1F, 0x00, 0x08, 0x00, 0x00, 0x00, 0x00]

/-- A concrete `START_ROSPEC_RESPONSE` (type 32) carrying no parameter at
all (in particular no `LLRPStatus`). -/
def startRespBare : List Nat := [0x04, 32, 0, 0, 0, 10, 0, 0, 0, 8]

/-- A concrete `DELETE_ROSPEC_RESPONSE` (type 31) with no parameters. -/
def deleteRespBare : List Nat := [0x04, 31, 0, 0, 0, 10, 0, 0, 0, 3]

/-- A concrete `RO_ACCESS_REPORT` (type 61) with one `TagReportData` (240)
holding a single EPC-96 TV parameter. -/
def reportMsg : List Nat :=
  [0x04, 61, 0, 0, 0, 27, 0, 0, 0, 9] ++ [0x00, 0xF0, 0x00, 17] ++
  [0x8D, 1, 2, 3, 4, 5, 6, 7, 8, 9, 10, 11, 12]

/-- A `TagReportData` body starting with a zero-length (malformed) TLV whose
nearest MSB-set byte sits 5 bytes ahead — beyond the source's 4-byte TLV
resynchronisation scan but within the claimed 16-byte scan.  The bytes from
offset 5 read as a TV `AntennaID` with value 3. -/
def malformedRec : List Nat := [0, 0, 0, 0, 0, 0x81, 0x00, 0x03]

/-- A `TagReportData` body that is a single well-formed `EPCData` (241) TLV
with the given EPC bit length and EPC bytes. -/
def epcDataRec (bits : Nat) (epcBytes : List Nat) : List Nat :=
  [0x00, 0xF1] ++ u16w (6 + epcBytes.length) ++ u16w bits ++ epcBytes

/-! ## Helper lemmas -/

theorem dbmOf_eq_div (v : Int) : dbmOf v = (v : ℚ) / 100 := by
  simp [dbmOf, Rat.divInt_eq_div]

theorem lor_mul256 (m r : Nat) (hm : m ≤ 3) (hr : r < 256) :
    (m <<< 8) ||| r = m * 256 + r := by
  interval_cases m <;> interval_cases r <;> decide

theorem and3_of_le (m : Nat) (hm : m ≤ 3) : m &&& 3 = m := by
  interval_cases m <;> decide

theorem four_or_and3 (m : Nat) (hm : m ≤ 3) : (4 ||| m) &&& 3 = m := by
  interval_cases m <;> decide

/-! ## C4 — frame length below the 10-byte header -/

/-- C4 (counterexample): the claim says a declared total length below 10
fails with `FrameLengthInvalid` and is neither delivered nor looped on.  On
a 10-byte buffer declaring length 0, one iteration of the receive loop
delivers an (empty) frame and leaves the buffer unchanged, so the loop
repeats forever on the same state; with declared length 5, a 5-byte frame
is delivered to `processMessage`.  No failure value exists. -/
theorem c4_counterexample :
    handleDataStep zeroLenBuf = some ([], zeroLenBuf) ∧
    drainF 3 zeroLenBuf = ([[], [], []], zeroLenBuf) ∧
    handleDataStep fiveLenBuf = some ([4, 61, 0, 0, 0], [5, 0, 0, 0, 1]) := by
  decide

/-- C4 (amended): with a 10-byte header available and a declared total
length below 10, the frame decoder does not fail: it still splits off a
frame of the declared length and delivers it, and when the declared length
is 0 it consumes no input, so the receive loop spins forever re-delivering
an empty frame on an unchanged buffer. -/
theorem c4_short_length_delivered (buf : List Nat)
    (h10 : 10 ≤ buf.length) (hlt : read32 buf 2 < 10) :
    handleDataStep buf = some (buf.take (read32 buf 2), buf.drop (read32 buf 2)) ∧
    (read32 buf 2 = 0 → ∀ fuel, drainF fuel buf = (List.replicate fuel [], buf)) := by
  have hstep : handleDataStep buf =
      some (buf.take (read32 buf 2), buf.drop (read32 buf 2)) := by
    unfold handleDataStep
    rw [if_pos h10, if_neg (by omega)]
  refine ⟨hstep, fun h0 fuel => ?_⟩
  induction fuel with
  | zero => simp [drainF]
  | succ n ih =>
    rw [drainF, hstep, h0]
    simp only [List.take_zero, List.drop_zero]
    rw [ih]
    simp [List.replicate_succ]

/-- C4 (witness for the amended theorem at the zero-length buffer). -/
theorem c4_witness :
    handleDataStep zeroLenBuf =
      some (zeroLenBuf.take (read32 zeroLenBuf 2), zeroLenBuf.drop (read32 zeroLenBuf 2)) ∧
    drainF 2 zeroLenBuf = (List.replicate 2 [], zeroLenBuf) := by
  have h := c4_short_length_delivered zeroLenBuf (by decide) (by decide)
  exact ⟨h.1, h.2 (by decide) 2⟩

/-! ## C7 — outbound frame round-trip -/

/-- C7: for every type in [0, 1023] and payload below the u32 length bound,
decoding the emitted frame yields the type and payload back, header byte 0
is `0x04 ||| ((type >>> 8) &&& 3)`, the two byte-0 encodings in the source
produce identical frames for every type, and the framing loop consumes the
encoded frame whole. -/
theorem c7_frame_roundtrip (t mid : Nat) (p : List Nat)
    (ht : t ≤ 1023) (hp : p.length < 4294967296 - 10) :
    msgTypeOf (encodeFrame t mid p) = t ∧
    (encodeFrame t mid p).drop 10 = p ∧
    byteAt (encodeFrame t mid p) 0 = 0x04 ||| ((t >>> 8) &&& 3) ∧
    (∀ ty mid' p', encodeFrameMin ty mid' p' = encodeFrame ty mid' p') ∧
    handleDataStep (encodeFrame t mid p) = some (encodeFrame t mid p, []) := by
  have hshr : t >>> 8 = t / 256 := Nat.shiftRight_eq_div_pow t 8
  have hdiv : t / 256 ≤ 3 := by omega
  have hm : (t >>> 8) &&& 3 = t / 256 := by rw [hshr]; exact and3_of_le _ hdiv
  have hb0 : byteAt (encodeFrame t mid p) 0 = 4 ||| (t / 256) := by
    simp [encodeFrame, byteAt, hm]
  have hb1 : byteAt (encodeFrame t mid p) 1 = t % 256 := by
    simp [encodeFrame, byteAt, Nat.and_pow_two_sub_one_eq_mod t 8]
  have hlen : (encodeFrame t mid p).length = 10 + p.length := by
    simp [encodeFrame, u32w]
    omega
  have htype : msgTypeOf (encodeFrame t mid p) = t := by
    rw [msgTypeOf, hb0, hb1, four_or_and3 _ hdiv,
        lor_mul256 _ _ hdiv (Nat.mod_lt _ (by omega))]
    omega
  have hread : read32 (encodeFrame t mid p) 2 = 10 + p.length := by
    simp only [encodeFrame, u32w, read32, byteAt, List.cons_append, List.nil_append,
      List.getD_cons_succ, List.getD_cons_zero]
    omega
  refine ⟨htype, by simp [encodeFrame, u32w], by rw [hb0, hm], ?_, ?_⟩
  · intro ty mid' p'
    have : (0x01 <<< 2 : Nat) = 0x04 := rfl
    simp [encodeFrameMin, encodeFrame, this]
  · unfold handleDataStep
    rw [hread, if_pos (by omega), if_neg (by omega)]
    rw [← hlen]
    simp

/-- C7 (witness at type 20, message ID 1, payload `[0xAB]`). -/
theorem c7_witness :
    msgTypeOf (encodeFrame 20 1 [0xAB]) = 20 ∧
    handleDataStep (encodeFrame 20 1 [0xAB]) = some (encodeFrame 20 1 [0xAB], []) := by
  have h := c7_frame_roundtrip 20 1 [0xAB] (by decide) (by decide)
  exact ⟨h.1, h.2.2.2.2⟩

/-! ## C1 — non-zero LLRPStatus in the startup chain -/

/-- C1 (counterexample): the claim says a non-zero status in an
`ADD_ROSPEC_RESPONSE` aborts the startup (the next chain message is not
sent) and tears the session down.  On a response of type 30 carrying
`LLRPStatus` code 100, the controller nevertheless emits `ENABLE_ROSPEC`
(type 24) and leaves its state untouched. -/
theorem c1_counterexample :
    msgTypeOf addRespBad = 30 ∧
    checkResponseB addRespBad = false ∧
    processMessage cfg0 initState addRespBad = (initState, [Ev.send 24 (u32w 1)]) := by
  decide

/-- C1 (amended): the status check of DELETE/ADD/ENABLE responses only
logs — the controller sends the next message of the chain unconditionally
and neither tears down nor reconnects; a failed status check on
`START_ROSPEC_RESPONSE` merely suppresses `rospecStarted` and the ready
event, again with no teardown. -/
theorem c1_chain_proceeds_regardless (cfg : Cfg) (s : RState) (d : List Nat) :
    (msgTypeOf d = 31 → processMessage cfg s d = (s, [Ev.send 20 (buildROSpec cfg s)])) ∧
    (msgTypeOf d = 30 → processMessage cfg s d = (s, [Ev.send 24 (u32w 1)])) ∧
    (msgTypeOf d = 34 → processMessage cfg s d = (s, [Ev.send 22 (u32w 1)])) ∧
    (msgTypeOf d = 32 → checkResponseB d = false → processMessage cfg s d = (s, [])) := by
  refine ⟨fun h => ?_, fun h => ?_, fun h => ?_, fun h hc => ?_⟩
  · simp [processMessage, h]
  · simp [processMessage, h]
  · simp [processMessage, h]
  · simp [processMessage, h, hc]

/-- C1 (witness for the amended theorem at a concrete
`DELETE_ROSPEC_RESPONSE` and the failed `ADD_ROSPEC_RESPONSE`). -/
theorem c1_witness :
    processMessage cfg0 initState deleteRespBare =
      (initState, [Ev.send 20 (buildROSpec cfg0 initState)]) ∧
    processMessage cfg0 initState startRespOk ≠ (initState, []) := by
  refine ⟨(c1_chain_proceeds_regardless cfg0 initState deleteRespBare).1 (by decide), ?_⟩
  decide

/-! ## C10 — responses with no LLRPStatus parameter -/

/-- C10: a response whose TLV walk contains no `LLRPStatus` (287) parameter
passes the status check, so the startup chain proceeds exactly as with an
explicit status 0; in particular a bare `START_ROSPEC_RESPONSE` still sets
`rospecStarted` and emits the ready event. -/
theorem c10_no_status_means_success (d : List Nat)
    (h : 287 ∉ (paramsFrom d 10).map fun p => p.2.1) :
    checkResponseB d = true ∧
    ∀ (cfg : Cfg) (s : RState), msgTypeOf d = 32 →
      (processMessage cfg s d).1.rospecStarted = true ∧
      (processMessage cfg s d).2 = [Ev.ready] := by
  have hchk : checkResponseB d = true := by
    rw [checkResponseB, List.all_eq_true]
    intro p hp
    have hne : p.2.1 ≠ 287 := fun hc => h (List.mem_map.mpr ⟨p, hp, hc⟩)
    simp [hne]
  refine ⟨hchk, fun cfg s h32 => ?_⟩
  constructor <;> simp [processMessage, h32, hchk]

/-- C10 (witness at the bare `START_ROSPEC_RESPONSE`). -/
theorem c10_witness :
    checkResponseB startRespBare = true ∧
    (processMessage cfg0 initState startRespBare).1.rospecStarted = true := by
  have h := c10_no_status_means_success startRespBare (by decide)
  exact ⟨h.1, (h.2 cfg0 initState (by decide)).1⟩

/-! ## C2 — buffered-tag suppression -/

theorem parseCaps_started (s : RState) (d : List Nat) :
    (parseCapabilities s d).2.rospecStarted = s.rospecStarted := by
  simp only [parseCapabilities]
  split_ifs <;> rfl

theorem processStarted_eq (cfg : Cfg) (s : RState) (d : List Nat) :
    (processMessage cfg s d).1.rospecStarted =
      (s.rospecStarted || (decide (msgTypeOf d = 32) && checkResponseB d)) := by
  by_cases h32 : msgTypeOf d = 32
  · cases hc : checkResponseB d <;> simp [processMessage, h32, hc]
  · have hr : (decide (msgTypeOf d = 32) && checkResponseB d) = false := by simp [h32]
    rw [hr, Bool.or_false]
    rcases hpc : parseCapabilities s d with ⟨b, s'⟩
    have hs' : s'.rospecStarted = s.rospecStarted := by
      have h := parseCaps_started s d
      rw [hpc] at h
      exact h
    by_cases h12 : msgTypeOf d = 12
    · simp [processMessage, h12]
    by_cases h63 : msgTypeOf d = 63
    · simp [processMessage, h12, h63]
    by_cases h11 : msgTypeOf d = 11
    · cases b <;> simp [processMessage, h12, h63, h11, hpc, hs', computePowerIndices]
    by_cases h100 : msgTypeOf d = 100
    · simp [processMessage, h12, h63, h11, h100]
    by_cases h13 : msgTypeOf d = 13
    · simp [processMessage, h12, h63, h11, h100, h13]
    by_cases h31 : msgTypeOf d = 31
    · simp [processMessage, h12, h63, h11, h100, h13, h31]
    by_cases h30 : msgTypeOf d = 30
    · simp [processMessage, h12, h63, h11, h100, h13, h31, h30]
    by_cases h34 : msgTypeOf d = 34
    · simp [processMessage, h12, h63, h11, h100, h13, h31, h30, h34]
    by_cases h61 : msgTypeOf d = 61
    · simp [processMessage, h12, h63, h11, h100, h13, h31, h30, h34, h32, h61]
    by_cases h62 : msgTypeOf d = 62
    · simp [processMessage, h12, h63, h11, h100, h13, h31, h30, h34, h32, h61, h62]
    · simp [processMessage, h12, h63, h11, h100, h13, h31, h30, h34, h32, h61, h62]

theorem runMsgs_fst (cfg : Cfg) (s : RState) (msgs : List (List Nat)) :
    (runMsgs cfg s msgs).1 = runState cfg s msgs := by
  suffices h : ∀ msgs s (e : List Ev),
      (msgs.foldl (fun acc m =>
        let r := processMessage cfg acc.1 m
        (r.1, acc.2 ++ r.2)) (s, e)).1 = runState cfg s msgs by
    exact h msgs s []
  intro msgs
  induction msgs with
  | nil => intro s e; simp [runState]
  | cons m ms ih =>
    intro s e
    simp only [List.foldl_cons, runState]
    exact ih (processMessage cfg s m).1 _

/-- C2: while `rospecStarted` is false an `RO_ACCESS_REPORT` produces no
effects at all; `rospecStarted` stays false along any transcript that never
contains a `START_ROSPEC_RESPONSE` passing the status check; a
`START_ROSPEC_RESPONSE` with status 0 sets it; once set it is never unset;
and with it set, a report emits exactly one observation per
`TagReportData` record carrying a (non-empty) EPC, in record order. -/
theorem c2_buffered_tag_guard (cfg : Cfg) :
    (∀ (s : RState) (d : List Nat), msgTypeOf d = 61 → s.rospecStarted = false →
      (processMessage cfg s d).2 = []) ∧
    (∀ msgs, (∀ m ∈ msgs, ¬(msgTypeOf m = 32 ∧ checkResponseB m = true)) →
      (runMsgs cfg initState msgs).1.rospecStarted = false) ∧
    (∀ (s : RState) (d : List Nat), msgTypeOf d = 32 → checkResponseB d = true →
      (processMessage cfg s d).1.rospecStarted = true) ∧
    (∀ (s : RState) (d : List Nat), s.rospecStarted = true →
      (processMessage cfg s d).1.rospecStarted = true) ∧
    (∀ (s : RState) (d : List Nat), msgTypeOf d = 61 → s.rospecStarted = true →
      (processMessage cfg s d).2 =
        ((tagRecords d).filter hasEpc).map fun tg => Ev.tag (synthAntenna cfg tg)) := by
  refine ⟨?_, ?_, ?_, ?_, ?_⟩
  · intro s d h61 hf
    simp [processMessage, h61, hf]
  · intro msgs hno
    rw [runMsgs_fst]
    suffices h : ∀ msgs (s : RState), s.rospecStarted = false →
        (∀ m ∈ msgs, ¬(msgTypeOf m = 32 ∧ checkResponseB m = true)) →
        (runState cfg s msgs).rospecStarted = false by
      exact h msgs initState rfl hno
    intro msgs
    induction msgs with
    | nil => intro s hs _; simpa [runState] using hs
    | cons m ms ih =>
      intro s hs hno
      simp only [runState, List.foldl_cons]
      refine ih (processMessage cfg s m).1 ?_ fun x hx => hno x (List.mem_cons_of_mem m hx)
      rw [processStarted_eq, hs]
      have := hno m (List.mem_cons_self m ms)
      rcases h32 : decide (msgTypeOf m = 32) with _ | _
      · simp
      · have : ¬ checkResponseB m = true := fun hc => this ⟨of_decide_eq_true h32, hc⟩
        simp [this]
  · intro s d h32 hc
    rw [processStarted_eq, h32, hc]
    simp
  · intro s d hs
    rw [processStarted_eq, hs]
    simp
  · intro s d h61 hs
    simp [processMessage, h61, hs]

/-- C2 (witness: a report before any successful START produces nothing; a
START with status 0 flips the flag; a report afterwards yields the
record's observation). -/
theorem c2_witness :
    (processMessage cfg0 initState reportMsg).2 = [] ∧
    (runMsgs cfg0 initState [reportMsg]).1.rospecStarted = false ∧
    (processMessage cfg0 initState startRespOk).1.rospecStarted = true ∧
    (processMessage cfg0 { initState with rospecStarted := true } reportMsg).2 =
      ((tagRecords reportMsg).filter hasEpc).map fun tg => Ev.tag (synthAntenna cfg0 tg) := by
  refine ⟨(c2_buffered_tag_guard cfg0).1 initState reportMsg (by decide) rfl,
    (c2_buffered_tag_guard cfg0).2.1 [reportMsg] (by decide),
    (c2_buffered_tag_guard cfg0).2.2.1 initState startRespOk (by decide) (by decide),
    (c2_buffered_tag_guard cfg0).2.2.2.2 _ reportMsg (by decide) rfl⟩

/-! ## C6 — EPCData bit-length rounding -/

theorem tagLoopF_stop (fuel : Nat) (d : List Nat) (off : Nat) (tg : Tag)
    (h : ¬ off < d.length) : tagLoopF fuel d off tg = tg := by
  cases fuel with
  | zero => rfl
  | succ f => rw [tagLoopF, if_neg h]

/-- C6 (counterexample): the claim says the EPC covers `ceil(bits/8)`
bytes, so a 12-bit EPC keeps its partial second byte.  The parser instead
takes `floor(12/8) = 1` byte: the partial byte `0xCD` is dropped. -/
theorem c6_counterexample :
    (parseTagReportData (epcDataRec 12 [0xAB, 0xCD])).epc ≠ some [0xAB, 0xCD] ∧
    (parseTagReportData (epcDataRec 12 [0xAB, 0xCD])).epc = some [0xAB] := by
  decide

/-- C6 (amended): for a well-formed `EPCData` (241) record with EPC bit
length `bits`, the parser stores exactly the first `floor(bits/8)` bytes of
the EPC field — the trailing partial byte of a bit length that is not a
multiple of 8 is excluded. -/
theorem c6_epcdata_floor (bits : Nat) (epcBytes : List Nat)
    (hb : bits < 65536) (hlen : bits / 8 ≤ epcBytes.length)
    (hsz : 6 + epcBytes.length < 65536) :
    (parseTagReportData (epcDataRec bits epcBytes)).epc =
      some (epcBytes.take (bits / 8)) := by
  have hn : (epcDataRec bits epcBytes).length = 6 + epcBytes.length := by
    simp [epcDataRec, u16w]
    omega
  have hb0 : byteAt (epcDataRec bits epcBytes) 0 &&& 128 = 0 := by
    simp [epcDataRec, u16w, byteAt]
  have hty : read16 (epcDataRec bits epcBytes) 0 &&& 1023 = 241 := by
    simp [epcDataRec, u16w, byteAt, read16]
    decide
  have hlen2 : read16 (epcDataRec bits epcBytes) 2 = 6 + epcBytes.length := by
    simp [epcDataRec, u16w, byteAt, read16]
    omega
  have hbits : read16 (epcDataRec bits epcBytes) 4 = bits := by
    simp [epcDataRec, u16w, byteAt, read16]
    omega
  have hslice : bufSlice (epcDataRec bits epcBytes) 6 (6 + bits / 8) =
      epcBytes.take (bits / 8) := by
    simp [epcDataRec, u16w, bufSlice]
  have h0 : (0:Nat) < 6 + epcBytes.length := by omega
  have h3 : (3:Nat) < 6 + epcBytes.length := by omega
  have h5 : (5:Nat) < 6 + epcBytes.length := by omega
  have hne : 6 + epcBytes.length ≠ 0 := by omega
  have h7 : 6 + bits / 8 ≤ 6 + epcBytes.length := by omega
  unfold parseTagReportData
  rw [hn]
  simp [tagLoopF, hn, hb0, hty, hlen2, hbits, hslice, h0, h3, h5, hne, h7,
    tagLoopF_stop]

/-- C6 (witness for the amended theorem at the 12-bit EPC). -/
theorem c6_witness :
    (parseTagReportData (epcDataRec 12 [0xAB, 0xCD])).epc =
      some ([0xAB, 0xCD].take (12 / 8)) :=
  c6_epcdata_floor 12 [0xAB, 0xCD] (by decide) (by decide) (by decide)

/-! ## C5 — resynchronisation policy -/

/-- C5 (counterexample): the claim says a malformed TLV triggers a forward
scan of up to 16 bytes.  On a record opening with a zero-length TLV whose
nearest MSB-set byte is 5 bytes ahead, the parser abandons the record (its
scan stops after 4 bytes) and returns the empty observation, although an
MSB-set byte lies within 16 bytes and resuming there would have decoded
`AntennaID = 3`. -/
theorem c5_counterexample :
    parseTagReportData malformedRec = tag0 ∧
    msbScan malformedRec 0 16 = some 5 ∧
    tagLoopF 9 malformedRec 5 tag0 = { antenna := some 3 } := by
  decide

/-- C5 (amended): inside a `TagReportData`, an unknown TV type scans
forward up to 16 bytes for an MSB-set byte, resuming there or abandoning
the record; a malformed TLV — length 0 or overrunning the record — scans
forward only up to 4 bytes, resuming there or abandoning; a TLV that fits,
even one of length 1–3, is consumed by advancing its length with no
resynchronisation. -/
theorem c5_resync_policy (fuel : Nat) (d : List Nat) (off : Nat) (tg : Tag)
    (hin : off < d.length) :
    (byteAt d off &&& 128 ≠ 0 →
      byteAt d off &&& 127 ∉ [1, 6, 7, 8, 9, 10, 13, 14, 15, 16] →
      (∀ j, msbScan d off 16 = some j →
        tagLoopF (fuel + 1) d off tg = tagLoopF fuel d (off + j) tg) ∧
      (msbScan d off 16 = none → tagLoopF (fuel + 1) d off tg = tg)) ∧
    (byteAt d off &&& 128 = 0 → off + 3 < d.length →
      (read16 d (off + 2) = 0 ∨ d.length < off + read16 d (off + 2)) →
      (∀ j, msbScan d off 4 = some j →
        tagLoopF (fuel + 1) d off tg = tagLoopF fuel d (off + j) tg) ∧
      (msbScan d off 4 = none → tagLoopF (fuel + 1) d off tg = tg)) ∧
    (byteAt d off &&& 128 = 0 → off + 3 < d.length →
      read16 d (off + 2) ≠ 0 → ¬ d.length < off + read16 d (off + 2) →
      read16 d off &&& 1023 ≠ 241 → read16 d off &&& 1023 ≠ 13 →
      tagLoopF (fuel + 1) d off tg = tagLoopF fuel d (off + read16 d (off + 2)) tg) := by
  refine ⟨?_, ?_, ?_⟩
  · intro h128 hunk
    simp only [List.mem_cons, List.not_mem_nil, or_false, not_or] at hunk
    obtain ⟨n1, n6, n7, n8, n9, n10, n13, n14, n15, n16⟩ := hunk
    constructor
    · intro j hj
      simp [tagLoopF, hin, h128, n1, n6, n7, n8, n9, n10, n13, n14, n15, n16, hj]
    · intro hj
      simp [tagLoopF, hin, h128, n1, n6, n7, n8, n9, n10, n13, n14, n15, n16, hj]
  · intro h128 h3 hbad
    constructor
    · intro j hj
      simp [tagLoopF, hin, h128, h3, hbad, hj]
    · intro hj
      simp [tagLoopF, hin, h128, h3, hbad, hj]
  · intro h128 h3 hne hle h241 h13
    simp [tagLoopF, hin, h128, h3, hne, hle, h241, h13]

/-- C5 (witness for the amended theorem: the malformed-TLV branch at the
concrete record, where the 4-byte scan finds nothing and the record is
abandoned). -/
theorem c5_witness : tagLoopF 9 malformedRec 0 tag0 = tag0 := by
  have h := (c5_resync_policy 8 malformedRec 0 tag0 (by decide)).2.1
    (by decide) (by decide) (by decide)
  exact h.2 (by decide)

/-! ## C3 — power-index computation -/

theorem foldl_firstMinE (t : ℚ) (l : List (Nat × ℚ)) (acc : Nat × ℚ) :
    l.foldl (fun a e => if |e.2 - t| < |a.2 - t| then e else a) acc =
      firstMinE t acc l := by
  induction l generalizing acc with
  | nil => rfl
  | cons e l ih =>
    simp only [List.foldl_cons, firstMinE]
    split_ifs <;> exact ih _

theorem firstMinE_spec (t : ℚ) (l : List (Nat × ℚ)) : ∀ acc : Nat × ℚ,
    (∀ e ∈ l, |(firstMinE t acc l).2 - t| ≤ |e.2 - t|) ∧
    |(firstMinE t acc l).2 - t| ≤ |acc.2 - t| ∧
    (firstMinE t acc l = acc ∨
      ∃ i, ∃ h : i < l.length, firstMinE t acc l = l.get ⟨i, h⟩ ∧
        |(firstMinE t acc l).2 - t| < |acc.2 - t| ∧
        ∀ j, ∀ hj : j < l.length, j < i →
          |(firstMinE t acc l).2 - t| < |(l.get ⟨j, hj⟩).2 - t|) := by
  induction l with
  | nil => exact fun acc => ⟨by simp, le_refl _, Or.inl rfl⟩
  | cons e l ih =>
    intro acc
    by_cases hlt : |e.2 - t| < |acc.2 - t|
    · have heq : firstMinE t acc (e :: l) = firstMinE t e l := by
        simp [firstMinE, hlt]
      obtain ⟨ihall, ihacc, ihpos⟩ := ih e
      refine ⟨?_, ?_, ?_⟩
      · intro x hx
        rw [heq]
        rcases List.mem_cons.mp hx with h | h
        · rw [h]; exact ihacc
        · exact ihall x h
      · rw [heq]; exact le_trans ihacc (le_of_lt hlt)
      · right
        rcases ihpos with hacc | ⟨i, hi, hget, hlt', hbefore⟩
        · refine ⟨0, by simp, ?_, ?_, fun j hj hj0 => absurd hj0 (Nat.not_lt_zero j)⟩
          · rw [heq, hacc]; rfl
          · rw [heq, hacc]; exact hlt
        · refine ⟨i + 1, by simpa using Nat.succ_lt_succ hi, ?_, ?_, ?_⟩
          · rw [heq]; simpa using hget
          · rw [heq]; exact lt_of_le_of_lt ihacc hlt
          · intro j hj hjlt
            rw [heq]
            cases j with
            | zero => simpa using hlt'
            | succ j' =>
              have := hbefore j' (by simpa using hj) (by omega)
              simpa using this
    · have heq : firstMinE t acc (e :: l) = firstMinE t acc l := by
        simp [firstMinE, hlt]
      obtain ⟨ihall, ihacc, ihpos⟩ := ih acc
      refine ⟨?_, by rw [heq]; exact ihacc, ?_⟩
      · intro x hx
        rw [heq]
        rcases List.mem_cons.mp hx with h | h
        · rw [h]; exact le_trans ihacc (not_lt.mp hlt)
        · exact ihall x h
      · rcases ihpos with hacc | ⟨i, hi, hget, hlt', hbefore⟩
        · left; rw [heq, hacc]
        · right
          refine ⟨i + 1, by simpa using Nat.succ_lt_succ hi, ?_, ?_, ?_⟩
          · rw [heq]; simpa using hget
          · rw [heq]; exact hlt'
          · intro j hj hjlt
            rw [heq]
            cases j with
            | zero => simpa using lt_of_lt_of_le hlt' (not_lt.mp hlt)
            | succ j' =>
              have := hbefore j' (by simpa using hj) (by omega)
              simpa using this

/-- C3 (counterexample): the claim resolves ties to the lower index.  On
the table `[(index 5, 10 dBm), (index 3, 20 dBm)]` — sorted ascending by
dBm, as the capabilities parser stores it — and target 15 dBm, both entries
are at distance 5, yet the computation returns index 5, not the lower
index 3: ties go to the earlier table position, not the lower index. -/
theorem c3_counterexample :
    findClosestPowerIndex [(5, 10), (3, 20)] 15 = 5 ∧
    |(10 : ℚ) - 15| = |(20 : ℚ) - 15| ∧ (3 : Nat) < 5 := by
  have h10 : |(10 : ℚ) - 15| = 5 := by
    rw [show (10 : ℚ) - 15 = -5 by norm_num, abs_neg, abs_of_nonneg (by norm_num)]
  have h20 : |(20 : ℚ) - 15| = 5 := by
    rw [show (20 : ℚ) - 15 = 5 by norm_num, abs_of_nonneg (by norm_num)]
  refine ⟨?_, by rw [h10, h20], by omega⟩
  simp [findClosestPowerIndex, h10, h20]

/-- C3 (amended): on an empty power table the computation returns
`clamp(round(t), 1, 100)`; on a non-empty table it returns the index of an
entry whose distance to the target is minimal over the whole table, and
among the minimisers the entry occurring earliest in table order wins (not
the entry with the lowest index). -/
theorem c3_power_index_closest (table : List (Nat × ℚ)) (t : ℚ) :
    (table = [] → findClosestPowerIndex table t = min (max 1 (jsRound t)) 100) ∧
    (table ≠ [] → ∃ i, ∃ h : i < table.length,
      findClosestPowerIndex table t = ((table.get ⟨i, h⟩).1 : Int) ∧
      (∀ j, ∀ hj : j < table.length,
        |(table.get ⟨i, h⟩).2 - t| ≤ |(table.get ⟨j, hj⟩).2 - t|) ∧
      (∀ j, ∀ hj : j < table.length, j < i →
        |(table.get ⟨i, h⟩).2 - t| < |(table.get ⟨j, hj⟩).2 - t|)) := by
  constructor
  · intro h; rw [h]; rfl
  · intro hne
    match table with
    | [] => exact absurd rfl hne
    | e0 :: rest =>
      have hfold : findClosestPowerIndex (e0 :: rest) t =
          ((firstMinE t e0 rest).1 : Int) := by
        have h1 : firstMinE t e0 (e0 :: rest) = firstMinE t e0 rest := by
          simp [firstMinE]
        simp only [findClosestPowerIndex, foldl_firstMinE, h1]
      obtain ⟨ihall, ihacc, ihpos⟩ := firstMinE_spec t rest e0
      rcases ihpos with hacc | ⟨i, hi, hget, hlt', hbefore⟩
      · refine ⟨0, by simp, ?_, ?_, fun j hj hj0 => absurd hj0 (Nat.not_lt_zero j)⟩
        · rw [hfold, hacc]; rfl
        · intro j hj
          cases j with
          | zero => simp [hacc]
          | succ j' =>
            have hm : rest.get ⟨j', by simpa using hj⟩ ∈ rest := List.get_mem rest j' _
            have := ihall _ hm
            rw [hacc] at this
            simpa using this
      · refine ⟨i + 1, by simpa using Nat.succ_lt_succ hi, ?_, ?_, ?_⟩
        · rw [hfold, hget]; rfl
        · intro j hj
          cases j with
          | zero => exact le_of_lt (hget ▸ hlt')
          | succ j' =>
            have hm : rest.get ⟨j', by simpa using hj⟩ ∈ rest := List.get_mem rest j' _
            exact hget ▸ ihall _ hm
        · intro j hj hjlt
          cases j with
          | zero => exact hget ▸ hlt'
          | succ j' =>
            exact hget ▸ hbefore j' (by simpa using hj) (by omega)

/-- C3 (witness: the empty-table clamp at target 7, and the concrete tied
table where the earliest minimiser wins). -/
theorem c3_witness :
    findClosestPowerIndex [] (7 : ℚ) = min (max 1 (jsRound 7)) 100 ∧
    ∃ i, ∃ h : i < ([(5, 10), (3, 20)] : List (Nat × ℚ)).length,
      findClosestPowerIndex [(5, 10), (3, 20)] 15 =
        ((([(5, 10), (3, 20)] : List (Nat × ℚ)).get ⟨i, h⟩).1 : Int) ∧
      (∀ j, ∀ hj : j < ([(5, 10), (3, 20)] : List (Nat × ℚ)).length,
        |(([(5, 10), (3, 20)] : List (Nat × ℚ)).get ⟨i, h⟩).2 - 15| ≤
          |(([(5, 10), (3, 20)] : List (Nat × ℚ)).get ⟨j, hj⟩).2 - 15|) ∧
      (∀ j, ∀ hj : j < ([(5, 10), (3, 20)] : List (Nat × ℚ)).length, j < i →
        |(([(5, 10), (3, 20)] : List (Nat × ℚ)).get ⟨i, h⟩).2 - 15| <
          |(([(5, 10), (3, 20)] : List (Nat × ℚ)).get ⟨j, hj⟩).2 - 15|) :=
  ⟨(c3_power_index_closest [] 7).1 rfl,
    (c3_power_index_closest [(5, 10), (3, 20)] 15).2 (by simp)⟩

/-! ## C9 — ROSpec shape -/

theorem suffix_append_left (l₁ l₂ l₃ : List Nat) (h : l₁ <:+ l₃) : l₁ <:+ l₂ ++ l₃ :=
  h.trans (List.suffix_append l₂ l₃)

theorem infixOfSuffix {l₁ l₂ : List Nat} (h : l₁ <:+ l₂) : l₁ <:+: l₂ := by
  obtain ⟨s, hs⟩ := h
  exact ⟨s, [], by simp [hs]⟩

theorem infixOfMemFlatten {x : List Nat} :
    ∀ {L : List (List Nat)}, x ∈ L → x <:+: L.flatten := by
  intro L
  induction L with
  | nil => exact fun h => absurd h (List.not_mem_nil x)
  | cons l L ih =>
    intro h
    rcases List.mem_cons.mp h with h | h
    · rw [h]
      exact ⟨[], L.flatten, by simp⟩
    · exact (ih h).trans ⟨l, [], by simp⟩

theorem paramsF_stop (fuel : Nat) (d : List Nat) (off : Nat)
    (h : ¬ off + 4 ≤ d.length) : paramsF fuel d off = [] := by
  cases fuel with
  | zero => rfl
  | succ f => rw [paramsF, if_neg h]

/-- C9: for every configuration and state, each antenna's
`AntennaConfiguration` (222) occurs in the built ROSpec and its body holds
exactly one nested parameter — the `RFTransmitter` (224), so no
`C1G2InventoryCommand` (330) — and the ROSpec ends with the
`TagReportContentSelector` (238) whose two-byte mask is 0x0000. -/
theorem c9_rospec_shape (cfg : Cfg) (s : RState) :
    (∀ a ∈ cfg.antennas,
      (antennaConfigB s a) <:+: buildROSpec cfg s ∧
      ((paramsFrom (antennaConfigValue s a) 2).map fun p => p.2.1) = [224]) ∧
    trcsB <:+ buildROSpec cfg s ∧ trcsB = [0, 238, 0, 6, 0, 0] := by
  refine ⟨fun a ha => ⟨?_, ?_⟩, ?_, by decide⟩
  · have h1 : antennaConfigB s a <:+: (cfg.antennas.map (antennaConfigB s)).flatten :=
      infixOfMemFlatten (List.mem_map_of_mem _ ha)
    have h2 : (cfg.antennas.map (antennaConfigB s)).flatten <:+ invParamSpecB cfg s := by
      simp only [invParamSpecB, tlvB, List.append_assoc]
      repeat first
        | exact List.suffix_append _ _
        | apply suffix_append_left
    have h3 : invParamSpecB cfg s <:+ aiSpecB cfg s := by
      simp only [aiSpecB, tlvB, List.append_assoc]
      repeat first
        | exact List.suffix_append _ _
        | apply suffix_append_left
    have h4 : aiSpecB cfg s ++ roReportSpecB <:+ buildROSpec cfg s := by
      simp only [buildROSpec, tlvB, List.append_assoc]
      repeat first
        | exact List.suffix_append _ _
        | apply suffix_append_left
    have h5 : aiSpecB cfg s <:+: aiSpecB cfg s ++ roReportSpecB :=
      ⟨[], roReportSpecB, by simp⟩
    exact h1.trans ((infixOfSuffix h2).trans ((infixOfSuffix h3).trans
      (h5.trans (infixOfSuffix h4))))
  · have hlen : (antennaConfigValue s a).length = 12 := by
      simp [antennaConfigValue, rfTransmitterB, tlvB, u16w, u16wI]
    have hty : read16 (antennaConfigValue s a) 2 &&& 1023 = 224 := by
      simp [antennaConfigValue, rfTransmitterB, tlvB, u16w, u16wI, read16, byteAt]
      decide
    have hl4 : read16 (antennaConfigValue s a) 4 = 10 := by
      simp [antennaConfigValue, rfTransmitterB, tlvB, u16w, u16wI, read16, byteAt]
    rw [paramsFrom, hlen]
    simp [paramsF, hlen, hty, hl4, paramsF_stop]
  · simp only [buildROSpec, roReportSpecB, tlvB, List.append_assoc]
    repeat first
      | exact List.suffix_append _ _
      | apply suffix_append_left

/-- C9 (witness at the concrete one-antenna configuration and the initial
state). -/
theorem c9_witness :
    (antennaConfigB initState 1) <:+: buildROSpec cfg0 initState ∧
    ((paramsFrom (antennaConfigValue initState 1) 2).map fun p => p.2.1) = [224] ∧
    trcsB <:+ buildROSpec cfg0 initState :=
  ⟨((c9_rospec_shape cfg0 initState).1 1 (by decide)).1,
    ((c9_rospec_shape cfg0 initState).1 1 (by decide)).2,
    (c9_rospec_shape cfg0 initState).2.1⟩

/-! ## C8 — parsing capabilities twice -/

theorem insertPow_perm (e : Nat × ℚ) (l : List (Nat × ℚ)) :
    (insertPow e l).Perm (e :: l) := by
  induction l with
  | nil => exact List.Perm.refl _
  | cons x xs ih =>
    rw [insertPow]
    split_ifs
    · exact (ih.cons x).trans (List.Perm.swap e x xs)
    · exact List.Perm.refl _

theorem sortPow_perm (l : List (Nat × ℚ)) : (sortPow l).Perm l := by
  induction l with
  | nil => exact List.Perm.refl _
  | cons x xs ih => exact (insertPow_perm x (sortPow xs)).trans (ih.cons x)

theorem uhfCollect_comp (d : List Nat) (c : Caps) :
    (uhfCollect c d).hop = c.hop ++ (uhfCollect ⟨[], []⟩ d).hop ∧
    (uhfCollect c d).power.Perm (c.power ++ (uhfCollect ⟨[], []⟩ d).power) := by
  refine ⟨by simp [uhfCollect], ?_⟩
  simp only [uhfCollect, List.nil_append]
  exact (sortPow_perm _).trans (List.Perm.append_left c.power (sortPow_perm _).symm)

theorem foldl_caps_comp (step : Caps → (Nat × Nat × Nat) → Caps)
    (hstep : ∀ p c, (step c p).hop = c.hop ++ (step ⟨[], []⟩ p).hop ∧
      (step c p).power.Perm (c.power ++ (step ⟨[], []⟩ p).power))
    (l : List (Nat × Nat × Nat)) :
    ∀ c, (l.foldl step c).hop = c.hop ++ (l.foldl step ⟨[], []⟩).hop ∧
      (l.foldl step c).power.Perm (c.power ++ (l.foldl step ⟨[], []⟩).power) := by
  induction l with
  | nil => intro c; simp
  | cons p l ih =>
    intro c
    simp only [List.foldl_cons]
    obtain ⟨ihh, ihp⟩ := ih (step c p)
    obtain ⟨ihh0, ihp0⟩ := ih (step ⟨[], []⟩ p)
    obtain ⟨sh, sp⟩ := hstep p c
    constructor
    · rw [ihh, sh, ihh0, List.append_assoc]
    · refine ihp.trans ((sp.append_right _).trans ?_)
      rw [List.append_assoc]
      exact List.Perm.append_left _ ihp0.symm

theorem regCollect_comp (d : List Nat) (c : Caps) :
    (regCollect c d).hop = c.hop ++ (regCollect ⟨[], []⟩ d).hop ∧
    (regCollect c d).power.Perm (c.power ++ (regCollect ⟨[], []⟩ d).power) := by
  unfold regCollect
  split_ifs with h
  · simp
  · refine foldl_caps_comp _ (fun p c => ?_) _ c
    split_ifs with h144
    · exact uhfCollect_comp _ c
    · simp

theorem capsCollect_comp (d : List Nat) (start : Nat) (c : Caps) :
    (capsCollect c d start).hop = c.hop ++ (capsCollect ⟨[], []⟩ d start).hop ∧
    (capsCollect c d start).power.Perm
      (c.power ++ (capsCollect ⟨[], []⟩ d start).power) := by
  unfold capsCollect
  refine foldl_caps_comp _ (fun p c => ?_) _ c
  split_ifs with h143
  · exact regCollect_comp _ c
  · simp

/-- C8 (counterexample): the claim says parsing the same capabilities
message twice (the second parse on the state of the first) yields identical
`power_table` and `hop_table_ids`.  On the concrete message with one power
entry and one hop table, the second parse appends the entries again:
`[(1, 10)]` becomes `[(1, 10), (1, 10)]` and `[1]` becomes `[1, 1]`. -/
theorem c8_counterexample :
    (parseCapabilities (parseCapabilities initState capsMsg).2 capsMsg).2.powerTable ≠
      (parseCapabilities initState capsMsg).2.powerTable ∧
    (parseCapabilities (parseCapabilities initState capsMsg).2 capsMsg).2.hopTableIds ≠
      (parseCapabilities initState capsMsg).2.hopTableIds ∧
    (parseCapabilities initState capsMsg).2.powerTable = [(1, 10)] ∧
    (parseCapabilities (parseCapabilities initState capsMsg).2 capsMsg).2.powerTable =
      [(1, 10), (1, 10)] := by
  decide

/-- C8 (amended): parsing the same capabilities message a second time, on
the state the first parse left, appends the message's contributions again:
the hop-table ID list is the single-parse list concatenated with itself,
the power table is a permutation of the single-parse table concatenated
with itself (re-sorted stably by dBm), and the selected hop-table ID is
unchanged.  The two parses agree exactly when the message contributes no
power entry and no hop-table ID. -/
theorem c8_caps_double_parse (d : List Nat) :
    (parseCapabilities (parseCapabilities initState d).2 d).2.hopTableIds =
      (parseCapabilities initState d).2.hopTableIds ++
        (parseCapabilities initState d).2.hopTableIds ∧
    (parseCapabilities (parseCapabilities initState d).2 d).2.powerTable.Perm
      ((parseCapabilities initState d).2.powerTable ++
        (parseCapabilities initState d).2.powerTable) ∧
    (parseCapabilities (parseCapabilities initState d).2 d).2.hopTableId =
      (parseCapabilities initState d).2.hopTableId := by
  by_cases hA : 14 ≤ d.length ∧ read16 d 10 &&& 1023 = 287
  · by_cases hB : read16 d 14 ≠ 0
    · simp [parseCapabilities, hA, hB, initState]
    · have hparse : ∀ s : RState, parseCapabilities s d = (true, { s with
          powerTable :=
            (capsCollect ⟨s.powerTable, s.hopTableIds⟩ d (10 + read16 d 12)).power,
          hopTableIds :=
            (capsCollect ⟨s.powerTable, s.hopTableIds⟩ d (10 + read16 d 12)).hop,
          hopTableId :=
            match (capsCollect ⟨s.powerTable, s.hopTableIds⟩ d (10 + read16 d 12)).hop with
            | [] => 1
            | h :: _ => h }) := fun s => by
        simp only [parseCapabilities]
        rw [if_pos hA, if_neg hB]
      have heq0 : (⟨initState.powerTable, initState.hopTableIds⟩ : Caps) =
          (⟨[], []⟩ : Caps) := rfl
      have heta : (⟨(capsCollect ⟨[], []⟩ d (10 + read16 d 12)).power,
          (capsCollect ⟨[], []⟩ d (10 + read16 d 12)).hop⟩ : Caps) =
          capsCollect ⟨[], []⟩ d (10 + read16 d 12) := rfl
      have hcomp := capsCollect_comp d (10 + read16 d 12)
        (capsCollect ⟨[], []⟩ d (10 + read16 d 12))
      simp only [hparse, heq0, heta]
      refine ⟨hcomp.1, hcomp.2, ?_⟩
      rw [hcomp.1]
      cases (capsCollect ⟨[], []⟩ d (10 + read16 d 12)).hop with
      | nil => rfl
      | cons h hs => rfl
  · have hparse : ∀ s : RState, parseCapabilities s d = (true, { s with
        powerTable := (capsCollect ⟨s.powerTable, s.hopTableIds⟩ d 10).power,
        hopTableIds := (capsCollect ⟨s.powerTable, s.hopTableIds⟩ d 10).hop,
        hopTableId := match (capsCollect ⟨s.powerTable, s.hopTableIds⟩ d 10).hop with
          | [] => 1
          | h :: _ => h }) := fun s => by
      simp only [parseCapabilities]
      rw [if_neg hA]
    have heq0 : (⟨initState.powerTable, initState.hopTableIds⟩ : Caps) =
        (⟨[], []⟩ : Caps) := rfl
    have heta : (⟨(capsCollect ⟨[], []⟩ d 10).power,
        (capsCollect ⟨[], []⟩ d 10).hop⟩ : Caps) = capsCollect ⟨[], []⟩ d 10 := rfl
    have hcomp := capsCollect_comp d 10 (capsCollect ⟨[], []⟩ d 10)
    simp only [hparse, heq0, heta]
    refine ⟨hcomp.1, hcomp.2, ?_⟩
    rw [hcomp.1]
    cases (capsCollect ⟨[], []⟩ d 10).hop with
    | nil => rfl
    | cons h hs => rfl
